import Mathlib

/-!
Multimodal AI Policy Auditor — a shallow embedding.

A shallow embedding of the retrieval-augmented policy audit pipeline
implemented in src/app.py and src/create_db.py, together with theorems
settling the behavioural claims about it.

External collaborators (the Ollama embedding/judge/vision models, the
FAISS vector store, PyPDF2 page extraction, the Streamlit widgets) are
modelled at their interface boundary: each external call site takes the
call's outcome as an explicit argument, and the surrounding control flow
is translated from src/app.py line by line.
-/

/-- A retrieved policy chunk, mirroring the langchain document payload
stored in the FAISS index (its text lives in the field page_content). -/
structure Document where
  page_content : String
deriving DecidableEq, Repr

/-- Python's substring test (the binary operator for membership on str),
over lists of characters: true iff needle occurs contiguously anywhere
in hay. -/
def containsSub (needle hay : List Char) : Bool :=
  hay.tails.any (fun t => needle.isPrefixOf t)

/-- The two possible pass-or-fail outcomes of an audit. -/
inductive Verdict
  | PASS
  | FAIL
deriving DecidableEq, Repr

/-- The verdict branch shared by all three tabs of src/app.py
(lines 105-108, 125-128 and 148-151): the raw judge response is
classified FAIL when the Python membership check of the literal "FAIL"
in the response succeeds, and PASS otherwise. -/
def classify_verdict (result : String) : Verdict :=
  if containsSub "FAIL".toList result.toList then .FAIL else .PASS

/-- The loaded FAISS store at the interface boundary: its stored chunk
payloads in insertion order, plus the similarity score the embedding
space assigns to each (query, chunk) pair.  Scores are abstract
integers; only their order matters to ranking. -/
structure VectorDB where
  docs : List Document
  sim : String → Document → Int

/-- Modelled from the spec: FAISS similarity search (the call at
src/app.py line 64 goes into library code that is not under src/).
Per the spec §4.2, search returns min(k, size) entries ranked by
descending similarity with ties broken by index-insertion order
(stable).  Stable insertion step: a document is placed before the first
already-ranked entry of strictly smaller score. -/
def insertRanked (score : Document → Int) (d : Document) :
    List Document → List Document
  | [] => [d]
  | e :: es =>
      if score e ≤ score d then d :: e :: es else e :: insertRanked score d es

/-- Modelled from the spec: full ranking of the stored documents by
descending similarity score (stable insertion sort). -/
def rankDocs (score : Document → Int) : List Document → List Document
  | [] => []
  | d :: ds => insertRanked score d (rankDocs score ds)

/-- Modelled from the spec: similarity search returns the first k
entries of the descending-ranked store. -/
def similarity_search (db : VectorDB) (query : String) (k : Nat) :
    List Document :=
  (rankDocs (db.sim query) db.docs).take k

/-- One blocking call to an external model service. -/
inductive ExtCall
  | embedSearch (query : String) (k : Nat)
  | judgeChat (system user : String)
  | visionChat (image : List Nat)
deriving DecidableEq, Repr

/-- What one run_audit invocation produces: the judge's raw response,
the rules context built from retrieval, and the trace of external calls
made on the way. -/
structure AuditOut where
  response : String
  rules_text : String
  calls : List ExtCall
deriving Repr

/-- The judge system prompt assembled at src/app.py lines 68-80, with
the retrieved rules context interpolated in the middle. -/
def system_prompt_of (rules_text : String) : String :=
  "\n        You are an AI Safety Compliance Officer.\n        Audit the following CONTENT against the SAFETY RULES.\n        \n        SAFETY RULES:\n        " ++
    rules_text ++
    "\n        \n        INSTRUCTIONS:\n        - Determine if the CONTENT violates the rules.\n        - If text is safe, start with \"🟢 PASS\".\n        - If unsafe, start with \"🔴 FAIL\".\n        - Cite specific rule numbers.\n        "

/-- run_audit (src/app.py lines 61-88): retrieve the top 3 chunks for
the content, join their texts with blank lines into the rules context,
build the judge prompt, call the judge once, and hand back its raw
response together with the rules context.  The judge boundary is the
function argument judge; the spinner and label only affect progress
text. -/
def run_audit (db : VectorDB) (judge : String → String → String)
    (content_to_audit : String) (context_label : String := "Content") :
    AuditOut :=
  let retrieved_docs := similarity_search db content_to_audit 3
  let rules_text :=
    String.intercalate "\n\n" (retrieved_docs.map (fun d => d.page_content))
  let sys := system_prompt_of rules_text
  let usr := "CONTENT TO AUDIT: " ++ content_to_audit
  let response := judge sys usr
  { response := response
    rules_text := rules_text
    calls := [ExtCall.embedSearch content_to_audit 3, ExtCall.judgeChat sys usr] }

/-- The distinct ways loading the persisted index can fail: missing
path, corrupted payload, an embedder whose dimension does not match the
persisted vectors, or any other exception. -/
inductive LoadFailure
  | missingIndexPath
  | corruptedIndex
  | embedderDimMismatch
  | otherException (msg : String)
deriving DecidableEq, Repr

/-- load_knowledge_base (src/app.py lines 21-28): the embedder
construction and FAISS.load_local run inside try/except, whose joint
outcome is the argument; a success is returned as the database and
every exception is caught and mapped to None. -/
def load_knowledge_base (outcome : Except LoadFailure VectorDB) :
    Option VectorDB :=
  match outcome with
  | .ok db => some db
  | .error _ => none

/-- The serving process right after the module-level load
(src/app.py lines 30-38): either stopped at the error banner, or
serving the three audit tabs against the loaded database. -/
inductive AppStart
  | stopped (errMsg : String)
  | serving (db : VectorDB)

/-- Module-level startup (src/app.py lines 30-38): with no database the
app shows the error banner and st.stop() ends the script run before any
tab is rendered; otherwise the sidebar badge is shown and the tabs are
served. -/
def app_start (outcome : Except LoadFailure VectorDB) : AppStart :=
  match load_knowledge_base outcome with
  | none => .stopped "❌ Database not found. Please run 'create_db.py' first."
  | some db => .serving db

/-- Whether a started process will process audit requests at all. -/
def can_serve_audits : AppStart → Bool
  | .stopped _ => false
  | .serving _ => true

/-- analyze_image (src/app.py lines 48-59): the vision-model chat runs
inside try/except with the given outcome; success yields the message
content, and any exception is caught and formatted into an error
string. -/
def analyze_image (outcome : Except String String) : String :=
  match outcome with
  | .ok content => content
  | .error e =>
      "Error using Vision model: " ++ e ++ ". (Did you run 'ollama pull llava'?)"

/-- extract_text_from_pdf (src/app.py lines 41-46) with each page's
extract_text() result given as a string ("" when the page has no
extractable text): text starts empty and each page's text is appended
in page order. -/
def extract_text_from_pdf (pages : List String) : String :=
  pages.foldl (fun text page => text ++ page) ""

/-- The dynamic result one PDF page's extract_text() can produce: a
string, or None (non-string) from a pathological page. -/
inductive PyPdfPage
  | str (s : String)
  | nonePage
deriving DecidableEq, Repr

/-- One iteration of the extraction loop over the raw dynamic page
outcome: Python's += succeeds on a string and raises TypeError on
None. -/
def pdf_concat_step (text : String) (p : PyPdfPage) : Except String String :=
  match p with
  | .str s => .ok (text ++ s)
  | .nonePage =>
      .error "TypeError: can only concatenate str (not NoneType) to str"

/-- extract_text_from_pdf over the raw dynamic outcomes: the body has no
try/except, so a PdfReader parse failure propagates, and appending a
non-string page result raises TypeError, which also propagates to the
caller instead of being returned as a value. -/
def extract_text_from_pdf_dyn (parse : Except String (List PyPdfPage)) :
    Except String String :=
  match parse with
  | .error e => .error e
  | .ok pages => pages.foldlM pdf_concat_step ""

/-- A Streamlit box rendered to the user during one tab round. -/
inductive Shown
  | errorBox (s : String)
  | successBox (s : String)
  | warningBox (s : String)
  | infoBox (s : String)
  | textArea (label content : String)
deriving DecidableEq, Repr

/-- One round of the Text Audit tab (src/app.py lines 94-112) after the
button state and text-area content are read: with the button clicked
and truthy (nonempty) text, run_audit runs and the verdict box is shown
(error box on a FAIL response, success box otherwise); empty text gets
the warning instead; without a click nothing happens.  Returns the
boxes shown and the external calls made. -/
def tab1_step (db : VectorDB) (judge : String → String → String)
    (clicked : Bool) (text_input : String) (audit_mode : String) :
    List Shown × List ExtCall :=
  if clicked then
    if text_input ≠ "" then
      let a := run_audit db judge text_input audit_mode
      ((if classify_verdict a.response = .FAIL then
          [Shown.errorBox a.response]
        else [Shown.successBox a.response]) ++ [Shown.infoBox a.rules_text],
        a.calls)
    else ([Shown.warningBox "Please enter text."], [])
  else ([], [])

/-- One round of the PDF tab (src/app.py lines 114-128): with a file
uploaded and the button clicked, the pages are extracted, the extracted
character count is reported, and the extracted text is audited;
otherwise (no upload, or no click) nothing happens. -/
def tab2_step (db : VectorDB) (judge : String → String → String)
    (uploaded_pdf : Option (List String)) (clicked : Bool) :
    List Shown × List ExtCall :=
  match uploaded_pdf, clicked with
  | some pages, true =>
      let pdf_text := extract_text_from_pdf pages
      let a := run_audit db judge pdf_text "PDF Content"
      (Shown.infoBox
          ("Extracted " ++ toString pdf_text.length ++ " characters from PDF.") ::
        (if classify_verdict a.response = .FAIL then [Shown.errorBox a.response]
         else [Shown.successBox a.response]),
        a.calls)
  | _, _ => ([], [])

/-- One round of the Image tab (src/app.py lines 130-151): with an
image uploaded and the button clicked, the vision model is called on
the image bytes (outcome visionOutcome), whatever analyze_image hands
back is displayed in the description text area, and run_audit is then
invoked on that same string — including the error string when the
vision call failed. -/
def tab3_step (db : VectorDB) (judge : String → String → String)
    (uploaded_img : Option (List Nat)) (clicked : Bool)
    (visionOutcome : Except String String) :
    List Shown × List ExtCall :=
  match uploaded_img, clicked with
  | some img_bytes, true =>
      let visual_description := analyze_image visionOutcome
      let a := run_audit db judge visual_description "Image Description"
      (Shown.textArea "Vision Model Description:" visual_description ::
        (if classify_verdict a.response = .FAIL then [Shown.errorBox a.response]
         else [Shown.successBox a.response]),
        ExtCall.visionChat img_bytes :: a.calls)
  | _, _ => ([], [])

/-- Modelled from the spec: the Chunker (the langchain recursive
character splitter invoked at src/create_db.py lines 15-16) is library
code not under src/.  Per spec §4.1 splitting is recursive/hierarchical
and deterministic.  splitAfter cuts a text into atomic pieces, each
ending right after an occurrence of the boundary character, so the
pieces concatenate back to the text. -/
def splitAfter (sep : Char) (acc : List Char) : List Char → List (List Char)
  | [] => if acc = [] then [] else [acc.reverse]
  | c :: rest =>
      if c = sep then (acc.reverse ++ [c]) :: splitAfter sep [] rest
      else splitAfter sep (c :: acc) rest

/-- Modelled from the spec: the boundary hierarchy of §4.1 — paragraph
(line break), then sentence (full stop), then word (space) boundaries,
before the raw-character fallback. -/
def boundaryHierarchy : List Char := ['\n', '.', ' ']

/-- Modelled from the spec: one refinement pass — a piece that fits in
chunk_size stays whole, a piece that does not is re-split by the finer
splitter. -/
def refineAll (finerSplit : List Char → List (List Char)) (chunk_size : Nat)
    (ps : List (List Char)) : List (List Char) :=
  (ps.map (fun p => if p.length ≤ chunk_size then [p] else finerSplit p)).flatten

/-- Modelled from the spec: hierarchical splitting into atomic pieces,
preferring coarse boundaries and only falling back to a finer boundary
when a candidate piece still exceeds chunk_size; past the last boundary
a piece is cut into single characters. -/
def hierPieces (chunk_size : Nat) : List Char → List Char → List (List Char)
  | [] => fun t => t.map (fun c => [c])
  | sep :: finer => fun t =>
      refineAll (hierPieces chunk_size finer) chunk_size (splitAfter sep [] t)

/-- Modelled from the spec: greedy merge of the atomic pieces into
chunks of at most chunk_size characters; when a chunk is flushed, the
next chunk starts with the flushed chunk's last overlap characters,
giving the configured overlap between consecutive chunks. -/
def mergePieces (chunk_size overlap : Nat) (acc : List Char) :
    List (List Char) → List (List Char)
  | [] => if acc = [] then [] else [acc]
  | p :: ps =>
      if acc = [] then mergePieces chunk_size overlap p ps
      else if acc.length + p.length ≤ chunk_size then
        mergePieces chunk_size overlap (acc ++ p) ps
      else
        acc :: mergePieces chunk_size overlap
          (acc.drop (acc.length - overlap) ++ p) ps

/-- Modelled from the spec: the Chunker contract split of §4.1,
hierarchical atomisation followed by the greedy overlap merge. -/
def split_text (chunk_size overlap : Nat) (t : List Char) :
    List (List Char) :=
  mergePieces chunk_size overlap [] (hierPieces chunk_size boundaryHierarchy t)

/-- The chunking configuration fixed at src/create_db.py line 15:
chunk_size 500 and chunk_overlap 50. -/
def split_documents (t : List Char) : List (List Char) :=
  split_text 500 50 t

/-- A one-rule demonstration index with a flat similarity score, for
evaluating the flows at concrete inputs. -/
def demoDB : VectorDB :=
  ⟨[⟨"Rule 1: No violent content is permitted."⟩], fun _ _ => 0⟩

/-- A judge stub whose response carries no "FAIL" token. -/
def passJudge : String → String → String :=
  fun _ _ => "🟢 PASS — no violation found"

/-- A two-chunk demonstration index with a flat similarity score. -/
def twoChunkDB : VectorDB :=
  ⟨[⟨"a"⟩, ⟨"b"⟩], fun _ _ => 0⟩

theorem containsSub_iff (needle hay : List Char) :
    containsSub needle hay = true ↔ ∃ pre suf, hay = pre ++ needle ++ suf := by
  unfold containsSub
  rw [List.any_eq_true]
  constructor
  · rintro ⟨t, ht, hp⟩
    rw [List.mem_tails] at ht
    rw [ List.isPrefixOf_iff_prefix] at hp
    obtain ⟨suf, hsuf⟩ := hp
    obtain ⟨pre, hpre⟩ := ht
    exact ⟨pre, suf, by rw [← hpre, ← hsuf, List.append_assoc]⟩
  · rintro ⟨pre, suf, rfl⟩
    refine ⟨needle ++ suf, ?_, ?_⟩
    · rw [List.mem_tails]
      exact ⟨pre, by rw [List.append_assoc]⟩
    · rw [ List.isPrefixOf_iff_prefix]
      exact ⟨suf, rfl⟩

/-- C1: for every raw judge-model response string, the pass-or-fail
classification is FAIL if and only if the substring "FAIL" occurs
anywhere in the response text; any response not containing "FAIL" is
classified PASS. -/
theorem claim_C1_verdict_substring (r : String) :
    (classify_verdict r = .FAIL ↔
      ∃ pre suf, r.toList = pre ++ "FAIL".toList ++ suf) ∧
    (classify_verdict r = .PASS ↔
      ¬ ∃ pre suf, r.toList = pre ++ "FAIL".toList ++ suf) := by
  have hiff : classify_verdict r = .FAIL ↔
      ∃ pre suf, r.toList = pre ++ "FAIL".toList ++ suf := by
    rw [← containsSub_iff]
    unfold classify_verdict
    rcases Bool.eq_false_or_eq_true (containsSub "FAIL".toList r.toList) with hb | hb
    · rw [hb]
      simp
    · rw [hb]
      simp
  refine ⟨hiff, ?_, ?_⟩
  · intro hp hex
    have hf := hiff.mpr hex
    rw [hp] at hf
    exact Verdict.noConfusion hf
  · intro hnex
    cases h : classify_verdict r
    · rfl
    · exact absurd (hiff.mp h) hnex

/-- C3: if loading the persisted vector index fails (missing path,
corrupted index, or any other load failure), the serving path stops at
the error banner: it reports the unavailable-index condition and
refuses to process any audit request, rather than serving audits. -/
theorem claim_C3_index_unavailable_refuses (f : LoadFailure) :
    app_start (.error f) =
      .stopped "❌ Database not found. Please run 'create_db.py' first." ∧
    can_serve_audits (app_start (.error f)) = false :=
  ⟨rfl, rfl⟩

/-- C10: load_knowledge_base never raises — it is a total function of
the load outcome — and it maps every failure, whatever its kind, to the
single value None, so the caller cannot distinguish a configuration
error from an unavailable index; a successful load is returned as the
database. -/
theorem claim_C10_load_maps_all_failures_to_none (f g : LoadFailure)
    (db : VectorDB) :
    load_knowledge_base (.error f) = none ∧
    load_knowledge_base (.error f) = load_knowledge_base (.error g) ∧
    load_knowledge_base (.ok db) = some db :=
  ⟨rfl, rfl, rfl⟩

/-- C8: analyze_image is total over service outcomes: a success is
returned as the description, a failure is returned as an error-message
string with the "Error using Vision model:" prefix — and there is a
successful outcome yielding the identical string, so the caller cannot
distinguish failure from description by type alone. -/
theorem claim_C8_analyze_image_total (e d : String) :
    analyze_image (.ok d) = d ∧
    analyze_image (.error e) =
      "Error using Vision model: " ++ e ++
        ". (Did you run 'ollama pull llava'?)" ∧
    "Error using Vision model:".data.isPrefixOf
      (analyze_image (.error e)).data = true ∧
    ∃ d2, analyze_image (.error e) = analyze_image (.ok d2) := by
  refine ⟨rfl, rfl, ?_, ?_⟩
  · rw [ List.isPrefixOf_iff_prefix]
    have h1 : "Error using Vision model: ".data =
        "Error using Vision model:".data ++ [' '] := by decide
    show "Error using Vision model:".data <+:
      ("Error using Vision model: " ++ e ++
        ". (Did you run 'ollama pull llava'?)").data
    rw [String.data_append, String.data_append, h1]
    exact ⟨[' '] ++ e.data ++ ". (Did you run 'ollama pull llava'?)".data,
      by simp⟩
  · exact ⟨"Error using Vision model: " ++ e ++
      ". (Did you run 'ollama pull llava'?)", rfl⟩

/-- C7: every audit entry point rejects a missing or empty required
input before any retrieval or judging work: a click with empty text in
the text tab only warns and makes no external call, and with no file
uploaded the PDF and image tabs do nothing and make no external
call. -/
theorem claim_C7_empty_input_rejected (db : VectorDB)
    (judge : String → String → String) (mode : String) (clicked : Bool)
    (vo : Except String String) :
    tab1_step db judge true "" mode =
      ([Shown.warningBox "Please enter text."], []) ∧
    tab2_step db judge none clicked = ([], []) ∧
    tab3_step db judge none clicked vo = ([], []) := by
  refine ⟨rfl, ?_, ?_⟩
  · cases clicked <;> rfl
  · cases clicked <;> rfl

theorem extract_text_go (acc : String) (ps : List String) :
    List.foldl (fun text page => text ++ page) acc ps =
      acc ++ extract_text_from_pdf ps := by
  induction ps generalizing acc with
  | nil => simp [extract_text_from_pdf]
  | cons p ps ih =>
      show List.foldl _ (acc ++ p) ps = acc ++ extract_text_from_pdf (p :: ps)
      rw [ih (acc ++ p)]
      have : extract_text_from_pdf (p :: ps) = p ++ extract_text_from_pdf ps := by
        show List.foldl _ ("" ++ p) ps = _
        rw [ih ("" ++ p)]
        simp
      rw [this, String.append_assoc]

theorem extract_text_cons (p : String) (ps : List String) :
    extract_text_from_pdf (p :: ps) = p ++ extract_text_from_pdf ps := by
  show List.foldl _ ("" ++ p) ps = _
  rw [extract_text_go ("" ++ p)]
  simp

theorem extract_text_data (pages : List String) :
    (extract_text_from_pdf pages).data = (pages.map String.data).flatten := by
  induction pages with
  | nil => rfl
  | cons p ps ih =>
      rw [extract_text_cons, String.data_append, ih]
      rfl

/-- C5: for every PDF, the normalized text is the page texts joined in
page order (character for character); a page with no extractable text
contributes the empty string and is not an error — removing such a page
leaves the result unchanged, and the spec's three-page example holds —
and the character count the PDF tab reports to the caller equals the
length of that normalized text. -/
theorem claim_C5_pdf_normalization (db : VectorDB)
    (judge : String → String → String) (ps1 ps2 : List String) (t : String) :
    (∀ pages, (extract_text_from_pdf pages).data =
      (pages.map String.data).flatten) ∧
    extract_text_from_pdf (ps1 ++ [""] ++ ps2) =
      extract_text_from_pdf (ps1 ++ ps2) ∧
    extract_text_from_pdf ["", t, ""] = t ∧
    (∀ pages, (tab2_step db judge (some pages) true).1.head? =
      some (Shown.infoBox
        ("Extracted " ++ toString (extract_text_from_pdf pages).length ++
          " characters from PDF."))) := by
  refine ⟨extract_text_data, ?_, ?_, ?_⟩
  · induction ps1 with
    | nil =>
        show extract_text_from_pdf ("" :: ps2) = _
        rw [extract_text_cons]
        simp
    | cons p ps ih =>
        show extract_text_from_pdf (p :: (ps ++ [""] ++ ps2)) = _
        rw [extract_text_cons, ih]
        rw [← extract_text_cons]
        rfl
  · rw [extract_text_cons, extract_text_cons, extract_text_cons]
    show "" ++ (t ++ ("" ++ "")) = t
    simp
  · intro pages
    rfl

theorem pdf_fold_none (acc : String) (pages : List PyPdfPage)
    (h : PyPdfPage.nonePage ∈ pages) :
    pages.foldlM pdf_concat_step acc =
      .error "TypeError: can only concatenate str (not NoneType) to str" := by
  induction pages generalizing acc with
  | nil => cases h
  | cons p ps ih =>
      cases p with
      | str s =>
          have hmem : PyPdfPage.nonePage ∈ ps := by
            rcases List.mem_cons.mp h with h1 | h2
            · exact absurd h1 (by simp)
            · exact h2
          simp only [List.foldlM_cons, pdf_concat_step]
          exact ih (acc ++ s) hmem
      | nonePage =>
          simp only [List.foldlM_cons, pdf_concat_step]
          rfl

/-- C9: extract_text_from_pdf performs no error handling: a PDF parse
failure propagates unchanged, and whenever some page's extraction
yields a non-string (None), the string concatenation raises a TypeError
that propagates to the caller instead of being returned as an error
value — the error branch is reachable at the public interface. -/
theorem claim_C9_pdf_extraction_unhandled (e : String)
    (pages : List PyPdfPage) (h : PyPdfPage.nonePage ∈ pages) :
    extract_text_from_pdf_dyn (.error e) = .error e ∧
    extract_text_from_pdf_dyn (.ok pages) =
      .error "TypeError: can only concatenate str (not NoneType) to str" :=
  ⟨rfl, pdf_fold_none "" pages h⟩

/-- Witness for C9 at a concrete two-page PDF whose second page yields
None. -/
theorem claim_C9_witness :
    extract_text_from_pdf_dyn (.error "x") = .error "x" ∧
    extract_text_from_pdf_dyn
        (.ok [PyPdfPage.str "a", PyPdfPage.nonePage]) =
      .error "TypeError: can only concatenate str (not NoneType) to str" :=
  claim_C9_pdf_extraction_unhandled "x" [PyPdfPage.str "a", PyPdfPage.nonePage]
    (by simp)

/-- C2 (code evidence at the failing input): at an image audit whose
vision call fails, the tab-3 flow does not short-circuit: the error
string analyze_image returns is fed forward into retrieval and judging
as if it were a valid description — the trace holds the embed/search
call and the judge call on it — and with a judge response lacking
"FAIL" the normalization failure is presented as a success (PASS-style)
box. -/
theorem claim_C2_error_string_fed_forward :
    ExtCall.embedSearch
        "Error using Vision model: connection refused. (Did you run 'ollama pull llava'?)"
        3 ∈
      (tab3_step demoDB passJudge (some [0]) true
        (.error "connection refused")).2 ∧
    Shown.successBox "🟢 PASS — no violation found" ∈
      (tab3_step demoDB passJudge (some [0]) true
        (.error "connection refused")).1 := by
  decide

theorem insertRanked_length (score : Document → Int) (d : Document)
    (l : List Document) :
    (insertRanked score d l).length = l.length + 1 := by
  induction l with
  | nil => rfl
  | cons e es ih =>
      rw [insertRanked]
      by_cases hc : score e ≤ score d
      · rw [if_pos hc]
        rfl
      · rw [if_neg hc]
        simp [ih]

theorem rankDocs_length (score : Document → Int) (l : List Document) :
    (rankDocs score l).length = l.length := by
  induction l with
  | nil => rfl
  | cons d ds ih =>
      rw [rankDocs, insertRanked_length, ih]
      rfl

theorem insertRanked_perm (score : Document → Int) (d : Document)
    (l : List Document) :
    List.Perm (insertRanked score d l) (d :: l) := by
  induction l with
  | nil => exact List.Perm.refl _
  | cons e es ih =>
      rw [insertRanked]
      by_cases hc : score e ≤ score d
      · rw [if_pos hc]
      · rw [if_neg hc]
        exact (ih.cons e).trans (List.Perm.swap d e es)

theorem rankDocs_perm (score : Document → Int) (l : List Document) :
    List.Perm (rankDocs score l) l := by
  induction l with
  | nil => exact List.Perm.refl _
  | cons d ds ih =>
      rw [rankDocs]
      exact (insertRanked_perm score d _).trans (ih.cons d)

theorem insertRanked_pairwise (score : Document → Int) (d : Document)
    (l : List Document)
    (h : l.Pairwise (fun a b => score b ≤ score a)) :
    (insertRanked score d l).Pairwise (fun a b => score b ≤ score a) := by
  induction l with
  | nil => simp [insertRanked]
  | cons e es ih =>
      rw [List.pairwise_cons] at h
      obtain ⟨he, hes⟩ := h
      rw [insertRanked]
      by_cases hc : score e ≤ score d
      · rw [if_pos hc]
        rw [List.pairwise_cons]
        refine ⟨?_, List.pairwise_cons.mpr ⟨he, hes⟩⟩
        intro x hx
        rcases List.mem_cons.mp hx with h1 | h2
        · rw [h1]
          exact hc
        · exact le_trans (he x h2) hc
      · rw [if_neg hc]
        rw [List.pairwise_cons]
        refine ⟨?_, ih hes⟩
        intro x hx
        rcases List.mem_cons.mp ((insertRanked_perm score d es).mem_iff.mp hx)
          with h1 | h2
        · rw [h1]
          exact le_of_lt (lt_of_not_le hc)
        · exact he x h2

theorem rankDocs_pairwise (score : Document → Int) (l : List Document) :
    (rankDocs score l).Pairwise (fun a b => score b ≤ score a) := by
  induction l with
  | nil => exact List.Pairwise.nil
  | cons d ds ih =>
      rw [rankDocs]
      exact insertRanked_pairwise score d _ ih

/-- C4 (amended): for every content string the audit retrieves exactly
the top 3 most similar chunks from the index — min(3, size) results,
ranked by descending similarity, together a permutation-complement of
the index in which nothing left behind scores higher than anything
retrieved — and the rules context handed to the judge prompt equals the
retrieved chunk texts, in ranked order, joined with a blank-line
separator between consecutive texts. -/
theorem claim_C4_top3_ranked_rules_context (db : VectorDB)
    (judge : String → String → String) (content lbl : String) :
    (similarity_search db content 3).length = min 3 db.docs.length ∧
    (similarity_search db content 3).Pairwise
      (fun a b => db.sim content b ≤ db.sim content a) ∧
    List.Perm
      (similarity_search db content 3 ++
        (rankDocs (db.sim content) db.docs).drop 3)
      db.docs ∧
    (∀ a ∈ similarity_search db content 3,
      ∀ b ∈ (rankDocs (db.sim content) db.docs).drop 3,
        db.sim content b ≤ db.sim content a) ∧
    (run_audit db judge content lbl).rules_text =
      String.intercalate "\n\n"
        ((similarity_search db content 3).map (fun d => d.page_content)) := by
  refine ⟨?_, ?_, ?_, ?_, rfl⟩
  · rw [similarity_search, List.length_take, rankDocs_length]
  · exact (rankDocs_pairwise (db.sim content) db.docs).sublist
      (List.take_sublist 3 _)
  · rw [similarity_search, List.take_append_drop]
    exact rankDocs_perm _ _
  · have hp := rankDocs_pairwise (db.sim content) db.docs
    rw [← List.take_append_drop 3 (rankDocs (db.sim content) db.docs),
      List.pairwise_append] at hp
    exact hp.2.2

/-- C4 (counterexample to the claim as stated): with two stored chunks
"a" and "b", the rules context handed to the judge is "a\n\nb" — the
ranked texts joined with a blank-line separator — which differs from
"ab", the retrieved chunk texts concatenated in ranked order. -/
theorem claim_C4_counterexample :
    (run_audit twoChunkDB passJudge "q" "Content").rules_text = "a\n\nb" ∧
    ¬ (run_audit twoChunkDB passJudge "q" "Content").rules_text =
        String.join ((similarity_search twoChunkDB "q" 3).map
          (fun d => d.page_content)) := by
  decide

theorem splitAfter_flatten (sep : Char) (acc t : List Char) :
    (splitAfter sep acc t).flatten = acc.reverse ++ t := by
  induction t generalizing acc with
  | nil => by_cases h : acc = [] <;> simp [splitAfter, h]
  | cons c rest ih =>
      by_cases h : c = sep
      · simp only [splitAfter, if_pos h, List.flatten_cons, ih,
          List.reverse_nil, List.nil_append]
        simp
      · simp only [splitAfter, if_neg h, ih, List.reverse_cons]
        simp

theorem flatten_singletons (t : List Char) :
    (t.map (fun c => [c])).flatten = t := by
  induction t with
  | nil => rfl
  | cons c cs ih => simp [ih]

theorem refineAll_flatten (f : List Char → List (List Char))
    (chunk_size : Nat) (ps : List (List Char))
    (hf : ∀ p, (f p).flatten = p) :
    (refineAll f chunk_size ps).flatten = ps.flatten := by
  induction ps with
  | nil => rfl
  | cons p ps ih =>
      simp only [refineAll] at ih ⊢
      rw [List.map_cons, List.flatten_cons, List.flatten_append, ih,
        List.flatten_cons]
      by_cases h : p.length ≤ chunk_size
      · simp [h]
      · simp [h, hf p]

theorem hierPieces_flatten (chunk_size : Nat) (seps t : List Char) :
    (hierPieces chunk_size seps t).flatten = t := by
  induction seps generalizing t with
  | nil => exact flatten_singletons t
  | cons sep finer ih =>
      show (refineAll (hierPieces chunk_size finer) chunk_size
        (splitAfter sep [] t)).flatten = t
      rw [refineAll_flatten _ _ _ ih, splitAfter_flatten]
      rfl

theorem mergePieces_small (chunk_size overlap : Nat) (ps : List (List Char))
    (acc : List Char) (h : acc.length + ps.flatten.length ≤ chunk_size) :
    mergePieces chunk_size overlap acc ps =
      if acc ++ ps.flatten = [] then [] else [acc ++ ps.flatten] := by
  induction ps generalizing acc with
  | nil => simp [mergePieces]
  | cons p ps ih =>
      rw [List.flatten_cons] at h ⊢
      rw [List.length_append] at h
      by_cases hacc : acc = []
      · subst hacc
        rw [mergePieces, if_pos rfl]
        rw [ih p (by omega)]
        simp
      · have hle : acc.length + p.length ≤ chunk_size := by omega
        rw [mergePieces, if_neg hacc, if_pos hle]
        rw [ih (acc ++ p) (by rw [List.length_append]; omega)]
        have hne : acc ++ p ++ ps.flatten ≠ [] := by simp [hacc]
        have hne2 : acc ++ (p ++ ps.flatten) ≠ [] := by simp [hacc]
        rw [if_neg hne, if_neg hne2, List.append_assoc]

/-- C6: with the chunking configuration of create_vector_db
(chunk_size 500, overlap 50), splitting an empty document yields the
empty chunk sequence (not an error), and splitting any non-empty
document shorter than chunk_size yields exactly one chunk — the
document itself. -/
theorem claim_C6_chunk_edge_cases (t : List Char)
    (h1 : t ≠ []) (h2 : t.length < 500) :
    split_documents [] = [] ∧ split_documents t = [t] := by
  constructor
  · rfl
  · show mergePieces 500 50 [] (hierPieces 500 boundaryHierarchy t) = [t]
    rw [mergePieces_small 500 50 _ []
      (by rw [hierPieces_flatten]; simpa using le_of_lt h2)]
    rw [hierPieces_flatten]
    simp [h1]

/-- Witness for C6 at the one-character document. -/
theorem claim_C6_witness :
    split_documents [] = [] ∧ split_documents ['a'] = [['a']] :=
  claim_C6_chunk_edge_cases ['a'] (by decide) (by decide)
